import Mathlib

/-!
Verification of the MARS voice-assistant session core.

Shallow embedding of the audio/session coordination code:
* `GeminiService` (WebSocket session to the model: connection lifecycle,
  function-call dispatch and correlation) from `src/services/gemini`;
* `LiveKitService` (PCM16 sample conversion, RMS voice-activity detection,
  playback scheduling and interruption) from `src/services/livekit`;
* the UI coordinator's capture-frame callback from the Index page.

Numbers that are IEEE doubles in the source are modelled as rationals (ℚ);
JavaScript `Int16Array` element conversion (truncation toward zero followed
by wrapping into 16-bit two's complement) is modelled explicitly on ℤ.
-/

namespace MARS

/-- JSON-compatible values: the dynamic objects passed between the model
session, the function router and the wire.  Objects are association lists. -/
inductive Json where
  | null : Json
  | bool (b : Bool) : Json
  | num (n : Int) : Json
  | str (s : String) : Json
  | arr (elems : List Json) : Json
  | obj (fields : List (String × Json)) : Json
deriving Repr

/-- A result value is "error-shaped" when it is an object carrying an
`error` key (the wire protocol has no out-of-band failure channel). -/
def Json.hasErrorKey : Json → Bool
  | Json.obj fields => fields.any (fun kv => kv.1 == "error")
  | _ => false

/-- A function-call request from the model: name, argument mapping, and the
opaque correlation id (`FunctionCall` in `src/services/gemini`). -/
structure FunctionCall where
  name : String
  args : List (String × Json)
  id : String
deriving Repr

/-- A registered function handler.  The source's handler returns a promise;
resolution is `Except.ok` with the result value and rejection is
`Except.error` with the rejection's message string. -/
def FunctionHandler : Type := FunctionCall → Except String Json

/-- Observable events of the function-call path, in program order:
`invoke id` marks the call into the registered handler for request `id`,
`send id v` marks `sendFunctionResult(id, v)` putting a correlated response
on the open socket. -/
inductive FnEvent where
  | invoke (id : String) : FnEvent
  | send (id : String) (result : Json) : FnEvent
deriving Repr

/-- `GeminiService.handleFunctionCall`, as the ordered list of observable
events it produces on an open session.  Mirrors the source: with no
registered handler it sends `{error: 'No function handler registered'}`;
otherwise it awaits the handler and sends its result, and a rejection is
caught and converted into `{error: message}` sent under the same id. -/
def handleFunctionCall (functionHandler : Option FunctionHandler)
    (call : FunctionCall) : List FnEvent :=
  match functionHandler with
  | none =>
      [FnEvent.send call.id
        (Json.obj [("error", Json.str "No function handler registered")])]
  | some handler =>
      match handler call with
      | Except.ok result =>
          [FnEvent.invoke call.id, FnEvent.send call.id result]
      | Except.error e =>
          [FnEvent.invoke call.id,
           FnEvent.send call.id (Json.obj [("error", Json.str e)])]

/-- `GeminiService.handleMessage` on a `toolCall.functionCalls` batch:
the source loop `for (const functionCall of ...) { await this.handleFunctionCall(...) }`
awaits each request's handling to completion before starting the next, so
the batch trace is the concatenation of the per-request traces in order. -/
def processToolCallBatch (functionHandler : Option FunctionHandler)
    (batch : List FunctionCall) : List FnEvent :=
  match batch with
  | [] => []
  | call :: rest =>
      handleFunctionCall functionHandler call ++
        processToolCallBatch functionHandler rest

/-- The responses (correlation id, result value) sent in a trace. -/
def sentResponses : List FnEvent → List (String × Json)
  | [] => []
  | FnEvent.invoke _ :: rest => sentResponses rest
  | FnEvent.send id v :: rest => (id, v) :: sentResponses rest

/-- Whether some event satisfying `p` occurs strictly before some event
satisfying `q` in the trace. -/
def occursBefore (p q : FnEvent → Bool) : List FnEvent → Bool
  | [] => false
  | e :: rest => (p e && rest.any q) || occursBefore p q rest

/-! ### Model-session connection lifecycle (`GeminiService`) -/

/-- WebSocket `readyState` values. -/
inductive WsReadyState where
  | connecting : WsReadyState
  | open : WsReadyState
  | closed : WsReadyState
deriving DecidableEq, Repr

/-- The connection-relevant state of a `GeminiService` instance:
`ws` is the socket field (`none` = the `null` field), `setupSent` records
that the handshake/configuration (`setup`) message has been written to the
socket, and `connectResolved` records that the promise returned by
`connect()` has resolved. -/
structure GeminiState where
  ws : Option WsReadyState
  setupSent : Bool
  connectResolved : Bool
deriving DecidableEq, Repr

/-- State before `connect()` is invoked. -/
def GeminiState.initial : GeminiState :=
  { ws := none, setupSent := false, connectResolved := false }

/-- External events driving the session lifecycle. -/
inductive GEvent where
  | connectStart : GEvent
  | wsOpen : GEvent
  | recvSetupComplete : GEvent
  | disconnect : GEvent
deriving DecidableEq, Repr

/-- One step of the session lifecycle, mirroring the source:
* `connectStart`: `connect()` constructs `new WebSocket(url)`;
* `wsOpen`: the socket reaches the open state and the `onopen` handler
  sends the `setup` message and immediately calls `resolve()`;
* `recvSetupComplete`: `handleMessage` matches `message.setupComplete`,
  logs, and returns — no field of the service changes;
* `disconnect`: `disconnect()` closes and nulls the socket. -/
def geminiStep (s : GeminiState) (e : GEvent) : GeminiState :=
  match e with
  | GEvent.connectStart =>
      { ws := some WsReadyState.connecting, setupSent := false,
        connectResolved := false }
  | GEvent.wsOpen =>
      if s.ws = some WsReadyState.connecting then
        { ws := some WsReadyState.open, setupSent := true,
          connectResolved := true }
      else s
  | GEvent.recvSetupComplete => s
  | GEvent.disconnect => { s with ws := none }

/-- Run the lifecycle from the fresh state over a list of events. -/
def runGemini (events : List GEvent) : GeminiState :=
  events.foldl geminiStep GeminiState.initial

/-- `GeminiService.isConnected`: `ws !== null && ws.readyState === OPEN`. -/
def isConnected (s : GeminiState) : Bool :=
  s.ws = some WsReadyState.open

/-- `GeminiService.sendAudio`: throws `'Not connected to Gemini'` unless the
socket exists and is open; otherwise transmits exactly one `realtimeInput`
media chunk carrying the frame and touches no state. -/
def sendAudio (s : GeminiState) (frame : List Int) :
    Except String (List (List Int)) :=
  if isConnected s then Except.ok [frame]
  else Except.error "Not connected to Gemini"

/-- The coordinator's capture-frame callback (Index page, `handleConnect`):
`try { await geminiService.sendAudio(audioData) } catch { console.error }` —
a send failure is absorbed, the frame is dropped, nothing is buffered.
Returns the (unchanged) session state and the list of transmitted chunks. -/
def onFrameCallback (s : GeminiState) (frame : List Int) :
    GeminiState × List (List Int) :=
  match sendAudio s frame with
  | Except.ok sent => (s, sent)
  | Except.error _ => (s, [])

/-! ### Sample conversion (`LiveKitService`, capture encode / playback decode) -/

/-- JavaScript number-to-integer conversion (`ToIntegerOrInfinity`):
truncation toward zero, i.e. floor for non-negative and ceiling for
negative values. -/
def jsTrunc (q : ℚ) : ℤ :=
  if 0 ≤ q then Int.floor q else Int.ceil q

/-- Wrapping an integer into a 16-bit two's-complement lane, as storing into
a JavaScript `Int16Array` does after truncation. -/
def toInt16 (z : ℤ) : ℤ :=
  (z + 32768) % 65536 - 32768

/-- The clamp `Math.max(-1, Math.min(1, x))` applied to each input sample in
`startAudioCapture`'s `onaudioprocess`. -/
def clampSample (x : ℚ) : ℚ :=
  max (-1) (min 1 x)

/-- Capture-side float→PCM16 conversion of one sample
(`pcm16[i] = s < 0 ? s * 0x8000 : s * 0x7FFF` after clamping, stored into an
`Int16Array`). -/
def floatToPCM16Sample (x : ℚ) : ℤ :=
  let s := clampSample x
  toInt16 (jsTrunc (if s < 0 then s * 32768 else s * 32767))

/-- Capture-side conversion of a whole block of samples. -/
def floatToPCM16 (xs : List ℚ) : List ℤ :=
  xs.map floatToPCM16Sample

/-- Playback-side PCM16→float conversion of one sample
(`float32[i] = pcm16[i] / (pcm16[i] < 0 ? 0x8000 : 0x7FFF)` in `playAudio`). -/
def pcm16ToFloatSample (p : ℤ) : ℚ :=
  (p : ℚ) / (if p < 0 then 32768 else 32767)

/-- Playback-side conversion of a whole block of samples. -/
def pcm16ToFloat (ps : List ℤ) : List ℚ :=
  ps.map pcm16ToFloatSample

/-! ### Voice-activity detection (`startAudioCapture` RMS gate) -/

/-- Mean square of a frame's samples (`sum / inputData.length` over squared
samples; an empty frame gives `0` here, and in the source the empty-frame
`NaN` likewise classifies as inactive). -/
def meanSquare (frame : List ℚ) : ℚ :=
  (frame.map (fun x => x * x)).sum / (frame.length : ℚ)

/-- The frame classification `Math.sqrt(sum / n) > threshold`.  Since both
sides are non-negative (the threshold is the positive constant `0.02` in the
source), the comparison is equivalent to comparing squares, which keeps the
definition inside ℚ: `sqrt m > t ↔ m > t²` for `t ≥ 0`. -/
def vadIsActive (threshold : ℚ) (frame : List ℚ) : Bool :=
  decide (threshold ^ 2 < meanSquare frame)

/-- The default threshold `voiceActivityThreshold = 0.02`. -/
def defaultVadThreshold : ℚ := 1 / 50

/-- The edge-triggered activity loop of `onaudioprocess`: one `wasActive`
boolean is retained across frames, the callback fires with the new
classification exactly when it differs from `wasActive`, and `wasActive` is
updated inside that branch.  Returns the list of emitted events
(`true` = became active). -/
def vadRun (threshold : ℚ) (wasActive : Bool) :
    List (List ℚ) → List Bool
  | [] => []
  | frame :: rest =>
      let isActive := vadIsActive threshold frame
      if isActive ≠ wasActive then isActive :: vadRun threshold isActive rest
      else vadRun threshold wasActive rest

/-- Specification-side count of classification alternations of a frame
sequence, relative to the starting classification `w`: the number of
positions whose classification differs from the previous one (the previous
classification of the first frame being `w`). -/
def numChanges (w : Bool) : List Bool → Nat
  | [] => 0
  | c :: cs => (if c ≠ w then 1 else 0) + numChanges c cs

/-! ### Playback scheduling (`playAudio` / `interruptAudio`) -/

/-- Playback-scheduler state of a `LiveKitService` instance:
`contextStarted` is whether `playbackAudioContext` exists, `nextStartTime`
the next-free-time watermark, `scheduledSources` the in-flight sources as
(startTime, duration) pairs, in scheduling order. -/
structure SchedState where
  contextStarted : Bool
  nextStartTime : ℚ
  scheduledSources : List (ℚ × ℚ)
deriving DecidableEq, Repr

/-- Scheduler state of a fresh service (no playback context yet). -/
def SchedState.initial : SchedState :=
  { contextStarted := false, nextStartTime := 0, scheduledSources := [] }

/-- The playback sample rate the source declares (`sampleRate: 24000`,
and `createBuffer(1, n, 24000)` so `audioBuffer.duration = n / 24000`). -/
def playbackRate : ℚ := 24000

/-- `LiveKitService.playAudio` for a frame of `nsamples` decoded samples,
with the output clock reading `clock`: lazily creates the playback context
(initialising the watermark to the current clock), schedules the source at
`max(nextStartTime, currentTime)`, appends it to `scheduledSources`, and
advances the watermark by the frame's duration.  Returns the new state and
the scheduled start time. -/
def playAudio (clock : ℚ) (nsamples : ℕ) (st : SchedState) :
    SchedState × ℚ :=
  let st0 :=
    if st.contextStarted then st
    else { st with contextStarted := true, nextStartTime := clock }
  let startTime := max st0.nextStartTime clock
  let duration : ℚ := (nsamples : ℚ) / playbackRate
  ({ st0 with
      scheduledSources := st0.scheduledSources ++ [(startTime, duration)],
      nextStartTime := startTime + duration },
   startTime)

/-- `LiveKitService.interruptAudio` with the output clock reading `clock`:
calls `stop()` on every source in `scheduledSources`, clears the list, and
(when the playback context exists) resets the watermark to the current
clock.  Returns the new state and the list of sources stopped. -/
def interruptAudio (clock : ℚ) (st : SchedState) :
    SchedState × List (ℚ × ℚ) :=
  let st1 := { st with scheduledSources := ([] : List (ℚ × ℚ)) }
  (if st.contextStarted then { st1 with nextStartTime := clock } else st1,
   st.scheduledSources)

/-- Recognises the handler-invocation event for request `id`. -/
def isInvokeOf (id : String) : FnEvent → Bool
  | FnEvent.invoke i => i == id
  | FnEvent.send _ _ => false

/-- Recognises a response-send event for request `id`. -/
def isSendOf (id : String) : FnEvent → Bool
  | FnEvent.send i _ => i == id
  | FnEvent.invoke _ => false

/-! ## Theorems -/

/-- C1: every function-call request delivered to the registered handler
yields exactly one response send carrying the request's correlation id, and
when the handler's promise rejects the response's result value is an
error-shaped mapping with an `error` key rather than no response at all. -/
theorem handleFunctionCall_exactly_one_response
    (handler : FunctionHandler) (call : FunctionCall) :
    ∃ result : Json,
      sentResponses (handleFunctionCall (some handler) call) =
        [(call.id, result)] ∧
      (∀ e : String, handler call = Except.error e →
        result.hasErrorKey = true) := by
  cases h : handler call with
  | ok r =>
      refine ⟨r, by simp [handleFunctionCall, h, sentResponses], ?_⟩
      intro e he
      simp at he
  | error e =>
      refine ⟨Json.obj [("error", Json.str e)],
        by simp [handleFunctionCall, h, sentResponses], ?_⟩
      intro e' _
      simp [Json.hasErrorKey]

/-- Witness for C1 at a concrete rejecting handler and request. -/
theorem handleFunctionCall_exactly_one_response_witness :
    ∃ result : Json,
      sentResponses
        (handleFunctionCall
          (some (fun _ => Except.error "weather lookup failed"))
          ⟨"get_weather", [], "call-1"⟩) = [("call-1", result)] ∧
      (∀ e : String,
        (fun _ => Except.error "weather lookup failed" : FunctionHandler)
            ⟨"get_weather", [], "call-1"⟩ = Except.error e →
        result.hasErrorKey = true) :=
  handleFunctionCall_exactly_one_response
    (fun _ => Except.error "weather lookup failed")
    ⟨"get_weather", [], "call-1"⟩

/-- C2 counterexample: in a two-request batch the handler invocation for the
second request does NOT occur before the first request's response is sent —
the batch loop awaits each request before dispatching the next.  At this
concrete input the trace is
`[invoke "a", send "a" _, invoke "b", send "b" _]`: the second invocation is
present but strictly after the first response, refuting the claim. -/
theorem batch_second_invoke_not_before_first_send :
    occursBefore (isInvokeOf "b") (isSendOf "a")
      (processToolCallBatch (some (fun _ => Except.ok Json.null))
        [⟨"get_weather", [], "a"⟩, ⟨"web_search", [], "b"⟩]) = false ∧
    (processToolCallBatch (some (fun _ => Except.ok Json.null))
        [⟨"get_weather", [], "a"⟩, ⟨"web_search", [], "b"⟩]).any
      (isInvokeOf "b") = true ∧
    occursBefore (isSendOf "a") (isInvokeOf "b")
      (processToolCallBatch (some (fun _ => Except.ok Json.null))
        [⟨"get_weather", [], "a"⟩, ⟨"web_search", [], "b"⟩]) = true := by
  refine ⟨?_, ?_, ?_⟩ <;>
    simp [processToolCallBatch, handleFunctionCall, occursBefore,
      isInvokeOf, isSendOf]

/-- C2 amended: batch dispatch is sequential.  For every registered handler
and two-request batch, the session invokes the handler for the first
request, sends its response, and only then invokes the handler for the
second request and sends its response. -/
theorem batch_dispatch_sequential
    (handler : FunctionHandler) (c1 c2 : FunctionCall) :
    ∃ r1 r2 : Json,
      processToolCallBatch (some handler) [c1, c2] =
        [FnEvent.invoke c1.id, FnEvent.send c1.id r1,
         FnEvent.invoke c2.id, FnEvent.send c2.id r2] := by
  cases h1 : handler c1 with
  | ok r1 =>
      cases h2 : handler c2 with
      | ok r2 =>
          exact ⟨r1, r2,
            by simp [processToolCallBatch, handleFunctionCall, h1, h2]⟩
      | error e2 =>
          exact ⟨r1, Json.obj [("error", Json.str e2)],
            by simp [processToolCallBatch, handleFunctionCall, h1, h2]⟩
  | error e1 =>
      cases h2 : handler c2 with
      | ok r2 =>
          exact ⟨Json.obj [("error", Json.str e1)], r2,
            by simp [processToolCallBatch, handleFunctionCall, h1, h2]⟩
      | error e2 =>
          exact ⟨Json.obj [("error", Json.str e1)],
            Json.obj [("error", Json.str e2)],
            by simp [processToolCallBatch, handleFunctionCall, h1, h2]⟩

/-- C3 counterexample: after the socket opens and the setup message is sent
— with no handshake acknowledgment received — `connect()` has already
resolved and the session reports itself connected, refuting the claim that
Ready is reached only after acknowledgment. -/
theorem ready_not_gated_on_ack :
    (runGemini [GEvent.connectStart, GEvent.wsOpen]).connectResolved = true ∧
    (runGemini [GEvent.connectStart, GEvent.wsOpen]).setupSent = true ∧
    isConnected (runGemini [GEvent.connectStart, GEvent.wsOpen]) = true ∧
    GEvent.recvSetupComplete ∉ [GEvent.connectStart, GEvent.wsOpen] := by
  refine ⟨rfl, rfl, rfl, ?_⟩
  decide

/-- C3 amended: the session reports Ready (connect resolved, `isConnected`,
accepting caller messages) as soon as the transport is open and the
handshake/configuration message has been sent, without waiting for the
acknowledgment; receiving the `setupComplete` acknowledgment changes no
session state at all. -/
theorem ready_on_open_before_ack :
    (∀ s : GeminiState, geminiStep s GEvent.recvSetupComplete = s) ∧
    (runGemini [GEvent.connectStart, GEvent.wsOpen]).connectResolved = true ∧
    (runGemini [GEvent.connectStart, GEvent.wsOpen]).setupSent = true ∧
    isConnected (runGemini [GEvent.connectStart, GEvent.wsOpen]) = true ∧
    sendAudio (runGemini [GEvent.connectStart, GEvent.wsOpen]) [0] =
      Except.ok [[0]] := by
  exact ⟨fun s => rfl, rfl, rfl, rfl, rfl⟩

/-- C9: a captured frame arriving while the session is not open is dropped,
not queued: `sendAudio` fails with no transmission and no state change, and
the coordinator's frame callback absorbs the failure, leaving the session
state unchanged and transmitting nothing — so nothing is retained to be
sent once the session later becomes Ready. -/
theorem audio_dropped_before_ready (s : GeminiState) (frame : List Int)
    (h : isConnected s = false) :
    sendAudio s frame = Except.error "Not connected to Gemini" ∧
    onFrameCallback s frame = (s, []) := by
  constructor
  · simp [sendAudio, h]
  · simp [onFrameCallback, sendAudio, h]

/-- Witness for C9 at the concrete not-yet-open state reached right after
`connect()` constructs the socket. -/
theorem audio_dropped_before_ready_witness :
    sendAudio (runGemini [GEvent.connectStart]) [1, 2, 3] =
      Except.error "Not connected to Gemini" ∧
    onFrameCallback (runGemini [GEvent.connectStart]) [1, 2, 3] =
      (runGemini [GEvent.connectStart], []) :=
  audio_dropped_before_ready (runGemini [GEvent.connectStart]) [1, 2, 3] rfl

/-- The clamp never goes below `-1`. -/
theorem neg_one_le_clampSample (x : ℚ) : -1 ≤ clampSample x :=
  le_max_left _ _

/-- The clamp never exceeds `1`. -/
theorem clampSample_le_one (x : ℚ) : clampSample x ≤ 1 :=
  max_le (by norm_num) (min_le_left _ _)

/-- On in-range input the clamp is the identity. -/
theorem clampSample_eq_of_mem (x : ℚ) (h1 : -1 ≤ x) (h2 : x ≤ 1) :
    clampSample x = x := by
  unfold clampSample
  rw [min_eq_right h2, max_eq_right h1]

/-- The 16-bit wrap is the identity on values already in the signed 16-bit
range. -/
theorem toInt16_eq_of_range (z : ℤ) (h1 : -32768 ≤ z) (h2 : z ≤ 32767) :
    toInt16 z = z := by
  unfold toInt16
  have h3 : (z + 32768) % 65536 = z + 32768 :=
    Int.emod_eq_of_lt (by omega) (by omega)
  omega

/-- The truncated scaled value of a clamped sample lies in the signed
16-bit range. -/
theorem jsTrunc_scale_range (s : ℚ) (h1 : -1 ≤ s) (h2 : s ≤ 1) :
    -32768 ≤ jsTrunc (if s < 0 then s * 32768 else s * 32767) ∧
    jsTrunc (if s < 0 then s * 32768 else s * 32767) ≤ 32767 := by
  by_cases hs : s < 0
  · have hq0 : s * 32768 < 0 := by nlinarith
    have hq1 : (-32768 : ℚ) ≤ s * 32768 := by nlinarith
    rw [if_pos hs]
    unfold jsTrunc
    rw [if_neg (not_le.mpr hq0)]
    constructor
    · by_contra hcon
      push_neg at hcon
      have hle : Int.ceil (s * 32768) ≤ -32769 := by omega
      rw [Int.ceil_le] at hle
      have : s * 32768 ≤ (-32769 : ℚ) := by exact_mod_cast hle
      linarith
    · have hle : Int.ceil (s * 32768) ≤ (0 : ℤ) := by
        rw [Int.ceil_le]
        exact_mod_cast le_of_lt hq0
      omega
  · have hs0 : 0 ≤ s := not_lt.mp hs
    have hq0 : (0 : ℚ) ≤ s * 32767 := by nlinarith
    have hq1 : s * 32767 ≤ (32767 : ℚ) := by nlinarith
    rw [if_neg hs]
    unfold jsTrunc
    rw [if_pos hq0]
    constructor
    · have hge : (0 : ℤ) ≤ Int.floor (s * 32767) := by
        rw [Int.le_floor]
        exact_mod_cast hq0
      omega
    · have := Int.floor_le (s * 32767)
      have : (Int.floor (s * 32767) : ℚ) ≤ 32767 := le_trans this hq1
      exact_mod_cast this

/-- C4: the capture-side float→PCM16 conversion clamps each sample to
[-1, 1] and then scales asymmetrically (negatives by 32768, non-negatives by
32767): the stored value equals the truncated scaled clamp (no 16-bit wrap
occurs — out-of-range inputs are clipped), lies in the signed 16-bit range,
inputs ≥ 1 map to 32767 and inputs ≤ -1 map to -32768, and the conversion
is total, producing one sample per input. -/
theorem floatToPCM16_clamp_scale_range :
    (∀ x : ℚ,
      floatToPCM16Sample x =
        jsTrunc (if clampSample x < 0 then clampSample x * 32768
                 else clampSample x * 32767) ∧
      -32768 ≤ floatToPCM16Sample x ∧ floatToPCM16Sample x ≤ 32767 ∧
      (1 ≤ x → floatToPCM16Sample x = 32767) ∧
      (x ≤ -1 → floatToPCM16Sample x = -32768)) ∧
    (∀ xs : List ℚ, (floatToPCM16 xs).length = xs.length) := by
  constructor
  · intro x
    have h1 := neg_one_le_clampSample x
    have h2 := clampSample_le_one x
    have hr := jsTrunc_scale_range (clampSample x) h1 h2
    have hwrap : floatToPCM16Sample x =
        jsTrunc (if clampSample x < 0 then clampSample x * 32768
                 else clampSample x * 32767) := by
      unfold floatToPCM16Sample
      exact toInt16_eq_of_range _ hr.1 hr.2
    refine ⟨hwrap, ?_, ?_, ?_, ?_⟩
    · rw [hwrap]; exact hr.1
    · rw [hwrap]; exact hr.2
    · intro hx
      have hc : clampSample x = 1 := by
        unfold clampSample
        rw [min_eq_left hx, max_eq_right (by norm_num : (-1 : ℚ) ≤ 1)]
      rw [hwrap, hc]
      norm_num [jsTrunc]
    · intro hx
      have hc : clampSample x = -1 := by
        unfold clampSample
        rw [min_eq_right (by linarith : x ≤ 1), max_eq_left hx]
      rw [hwrap, hc]
      norm_num [jsTrunc]
      rw [show ((-32768 : ℚ)) = ((-32768 : ℤ) : ℚ) by norm_num,
        Int.ceil_intCast]
  · intro xs
    simp [floatToPCM16]

/-- Witness for C4: an out-of-range positive input clips to 32767, an
out-of-range negative input clips to -32768, and a block converts
sample-for-sample. -/
theorem floatToPCM16_clamp_scale_range_witness :
    floatToPCM16Sample (3 / 2) = 32767 ∧
    floatToPCM16Sample (-3 / 2) = -32768 ∧
    (floatToPCM16 [2, -2, 0]).length = [(2 : ℚ), -2, 0].length := by
  refine ⟨?_, ?_, floatToPCM16_clamp_scale_range.2 [2, -2, 0]⟩
  · exact (floatToPCM16_clamp_scale_range.1 (3 / 2)).2.2.2.1 (by norm_num)
  · exact (floatToPCM16_clamp_scale_range.1 (-3 / 2)).2.2.2.2 (by norm_num)

/-- Round-trip error bound for one in-range sample: encoding then decoding
moves the value by at most one quantization step `1/32767`. -/
theorem roundtrip_sample_bound (x : ℚ) (h1 : -1 ≤ x) (h2 : x ≤ 1) :
    |pcm16ToFloatSample (floatToPCM16Sample x) - x| ≤ 1 / 32767 := by
  have hc : clampSample x = x := clampSample_eq_of_mem x h1 h2
  have hr0 := jsTrunc_scale_range x h1 h2
  have hp : floatToPCM16Sample x =
      jsTrunc (if x < 0 then x * 32768 else x * 32767) := by
    unfold floatToPCM16Sample
    rw [hc]
    exact toInt16_eq_of_range _ hr0.1 hr0.2
  by_cases hx : x < 0
  · have hq0 : x * 32768 < 0 := by nlinarith
    have hpc : floatToPCM16Sample x = Int.ceil (x * 32768) := by
      rw [hp, if_pos hx]
      unfold jsTrunc
      rw [if_neg (not_le.mpr hq0)]
    have hge : x * 32768 ≤ (Int.ceil (x * 32768) : ℚ) := Int.le_ceil _
    have hlt : (Int.ceil (x * 32768) : ℚ) < x * 32768 + 1 :=
      Int.ceil_lt_add_one _
    by_cases hp0 : Int.ceil (x * 32768) < 0
    · have hdec : pcm16ToFloatSample (floatToPCM16Sample x) =
          (Int.ceil (x * 32768) : ℚ) / 32768 := by
        rw [hpc]
        unfold pcm16ToFloatSample
        rw [if_pos hp0]
      rw [hdec, abs_le]
      constructor <;> linarith
    · have hple : Int.ceil (x * 32768) ≤ 0 := by
        rw [Int.ceil_le]
        exact_mod_cast le_of_lt hq0
      have hpe : Int.ceil (x * 32768) = 0 := le_antisymm hple (not_lt.mp hp0)
      have hdec : pcm16ToFloatSample (floatToPCM16Sample x) = 0 := by
        rw [hpc, hpe]
        unfold pcm16ToFloatSample
        norm_num
      rw [hdec]
      rw [hpe] at hlt
      push_cast at hlt
      rw [abs_le]
      constructor <;> linarith
  · have hx0 : 0 ≤ x := not_lt.mp hx
    have hq0 : (0 : ℚ) ≤ x * 32767 := by nlinarith
    have hpf : floatToPCM16Sample x = Int.floor (x * 32767) := by
      rw [hp, if_neg hx]
      unfold jsTrunc
      rw [if_pos hq0]
    have hfle : (Int.floor (x * 32767) : ℚ) ≤ x * 32767 := Int.floor_le _
    have hflt : x * 32767 < (Int.floor (x * 32767) : ℚ) + 1 :=
      Int.lt_floor_add_one _
    have hfnn : (0 : ℤ) ≤ Int.floor (x * 32767) := by
      rw [Int.le_floor]
      exact_mod_cast hq0
    have hdec : pcm16ToFloatSample (floatToPCM16Sample x) =
        (Int.floor (x * 32767) : ℚ) / 32767 := by
      rw [hpf]
      unfold pcm16ToFloatSample
      rw [if_neg (not_lt.mpr hfnn)]
    rw [hdec, abs_le]
    constructor <;> linarith

/-- C5: for every sequence of floats within [-1, 1], encoding with the
capture-side float→PCM16 conversion and decoding with the playback-side
PCM16→float conversion yields a sequence differing from the original
pointwise by at most one quantization step (1/32767 ≈ 1/32768). -/
theorem pcm16_roundtrip_error_bound (xs : List ℚ)
    (h : ∀ x ∈ xs, -1 ≤ x ∧ x ≤ 1) :
    List.Forall₂ (fun y x => |y - x| ≤ 1 / 32767)
      (pcm16ToFloat (floatToPCM16 xs)) xs := by
  induction xs with
  | nil => simp [pcm16ToFloat, floatToPCM16]
  | cons a rest ih =>
      have ha := h a (by simp)
      have hrest : ∀ x ∈ rest, -1 ≤ x ∧ x ≤ 1 :=
        fun x hx => h x (by simp [hx])
      simp only [pcm16ToFloat, floatToPCM16, List.map_cons]
      exact List.Forall₂.cons (roundtrip_sample_bound a ha.1 ha.2) (ih hrest)

/-- Witness for C5 on a concrete in-range sample sequence. -/
theorem pcm16_roundtrip_error_bound_witness :
    (∀ x ∈ [(1 : ℚ) / 2, -1 / 2, 1, -1, 0], -1 ≤ x ∧ x ≤ 1) ∧
    List.Forall₂ (fun y x => |y - x| ≤ 1 / 32767)
      (pcm16ToFloat (floatToPCM16 [(1 : ℚ) / 2, -1 / 2, 1, -1, 0]))
      [(1 : ℚ) / 2, -1 / 2, 1, -1, 0] :=
  ⟨by norm_num,
   pcm16_roundtrip_error_bound [(1 : ℚ) / 2, -1 / 2, 1, -1, 0]
     (by norm_num)⟩

/-- The VAD run emits nothing while frames keep the current classification
equal to the retained `wasActive` flag. -/
theorem vadRun_no_change (threshold : ℚ) (w : Bool)
    (frames : List (List ℚ))
    (h : ∀ f ∈ frames, vadIsActive threshold f = w) :
    vadRun threshold w frames = [] := by
  induction frames with
  | nil => rfl
  | cons f rest ih =>
      have hf := h f (by simp)
      have hrest : ∀ g ∈ rest, vadIsActive threshold g = w :=
        fun g hg => h g (by simp [hg])
      unfold vadRun
      rw [hf, if_neg (by simp)]
      exact ih hrest

/-- The number of events the VAD run emits equals the number of
classification changes of the frame sequence, counting a change relative to
the retained flag before the first frame. -/
theorem vadRun_length_eq_numChanges (threshold : ℚ) (w : Bool)
    (frames : List (List ℚ)) :
    (vadRun threshold w frames).length =
      numChanges w (frames.map (vadIsActive threshold)) := by
  induction frames generalizing w with
  | nil => rfl
  | cons f rest ih =>
      by_cases hch : vadIsActive threshold f = w
      · simp [vadRun, numChanges, hch, ih w]
      · simp [vadRun, numChanges, hch, ih (vadIsActive threshold f)]
        omega

/-- C6: with a registered activity callback and the detector starting
inactive, a non-empty run of frames all classified above threshold produces
exactly one callback invocation, carrying became-active, regardless of
length; and in general the number of invocations equals the number of
above/below classification alternations of the frame sequence (relative to
the initial inactive state). -/
theorem vad_edge_triggered :
    (∀ (threshold : ℚ) (frames : List (List ℚ)), frames ≠ [] →
      (∀ f ∈ frames, vadIsActive threshold f = true) →
      vadRun threshold false frames = [true]) ∧
    (∀ (threshold : ℚ) (frames : List (List ℚ)),
      (vadRun threshold false frames).length =
        numChanges false (frames.map (vadIsActive threshold))) := by
  constructor
  · intro threshold frames hne hall
    cases frames with
    | nil => exact absurd rfl hne
    | cons f rest =>
        have hf := hall f (by simp)
        have hrest : ∀ g ∈ rest, vadIsActive threshold g = true :=
          fun g hg => hall g (by simp [hg])
        unfold vadRun
        rw [hf, if_pos (by simp)]
        rw [vadRun_no_change threshold true rest hrest]
  · intro threshold frames
    exact vadRun_length_eq_numChanges threshold false frames

/-- Witness for C6: a sustained three-frame loud run yields one
became-active event; a loud/quiet/loud run at the default threshold yields
an event count equal to its three alternations. -/
theorem vad_edge_triggered_witness :
    vadRun defaultVadThreshold false [[1], [1], [1]] = [true] ∧
    (vadRun defaultVadThreshold false [[1], [0], [1]]).length =
      numChanges false
        ([[1], [0], [1]].map (vadIsActive defaultVadThreshold)) := by
  constructor
  · exact vad_edge_triggered.1 defaultVadThreshold [[1], [1], [1]]
      (by simp)
      (by
        intro f hf
        simp only [List.mem_cons, List.not_mem_nil, or_false] at hf
        rcases hf with h | h | h <;>
          simp [h, vadIsActive, meanSquare, defaultVadThreshold] <;>
          norm_num)
  · exact vad_edge_triggered.2 defaultVadThreshold [[1], [0], [1]]

/-- C7: every enqueued frame is scheduled at
`max(watermark, current clock)`, its duration is its sample count divided by
the declared sample rate, and the watermark advances to start + duration;
consequently three frames enqueued with the clock at 0 start back-to-back
at 0, d1, and d1 + d2. -/
theorem playback_gapless_scheduling :
    (∀ (st : SchedState) (clock : ℚ) (n : ℕ), st.contextStarted = true →
      (playAudio clock n st).2 = max st.nextStartTime clock ∧
      (playAudio clock n st).1.nextStartTime =
        (playAudio clock n st).2 + (n : ℚ) / playbackRate ∧
      (playAudio clock n st).1.scheduledSources =
        st.scheduledSources ++
          [((playAudio clock n st).2, (n : ℚ) / playbackRate)]) ∧
    (∀ n1 n2 n3 : ℕ,
      (playAudio 0 n1 SchedState.initial).2 = 0 ∧
      (playAudio 0 n2 (playAudio 0 n1 SchedState.initial).1).2 =
        (n1 : ℚ) / playbackRate ∧
      (playAudio 0 n3
          (playAudio 0 n2 (playAudio 0 n1 SchedState.initial).1).1).2 =
        (n1 : ℚ) / playbackRate + (n2 : ℚ) / playbackRate) := by
  constructor
  · intro st clock n hst
    refine ⟨?_, ?_, ?_⟩ <;> simp [playAudio, hst]
  · intro n1 n2 n3
    have h1 : (0 : ℚ) ≤ (n1 : ℚ) / playbackRate := by
      unfold playbackRate; positivity
    have h2 : (0 : ℚ) ≤ (n1 : ℚ) / playbackRate + (n2 : ℚ) / playbackRate := by
      unfold playbackRate; positivity
    refine ⟨?_, ?_, ?_⟩ <;>
      simp [playAudio, SchedState.initial, max_eq_left h1, max_eq_left h2]

/-- Witness for C7: a frame enqueued on a running context starts at the
later of watermark and clock, and a first frame at clock 0 starts at 0. -/
theorem playback_gapless_scheduling_witness :
    (playAudio 5 24000
      { contextStarted := true, nextStartTime := 2,
        scheduledSources := [] }).2 = max (2 : ℚ) 5 ∧
    (playAudio 0 24000 SchedState.initial).2 = 0 :=
  ⟨(playback_gapless_scheduling.1
      { contextStarted := true, nextStartTime := 2, scheduledSources := [] }
      5 24000 rfl).1,
   (playback_gapless_scheduling.2 24000 0 0).1⟩

/-- C8: `interrupt()` stops exactly the previously scheduled sources, leaves
the in-flight set empty, resets the watermark to the current clock (when the
playback context exists), and any frame enqueued afterwards at a clock at or
past the interruption time starts at that current clock time, never at a
time derived from pre-interruption state; with nothing scheduled and the
watermark not in the future, interrupting is observationally a no-op for
subsequent enqueues. -/
theorem interrupt_clears_and_resets (st : SchedState) (clock : ℚ) :
    (interruptAudio clock st).2 = st.scheduledSources ∧
    (interruptAudio clock st).1.scheduledSources = [] ∧
    (st.contextStarted = true →
      (interruptAudio clock st).1.nextStartTime = clock) ∧
    (∀ (c : ℚ) (n : ℕ), st.contextStarted = true → clock ≤ c →
      (playAudio c n (interruptAudio clock st).1).2 = c) ∧
    (st.scheduledSources = [] → st.nextStartTime ≤ clock →
      ∀ (c : ℚ) (n : ℕ), clock ≤ c →
        playAudio c n (interruptAudio clock st).1 = playAudio c n st) := by
  obtain ⟨cs, nst, srcs⟩ := st
  refine ⟨?_, ?_, ?_, ?_, ?_⟩
  · cases cs <;> simp [interruptAudio]
  · cases cs <;> simp [interruptAudio]
  · intro h
    simp at h
    simp [interruptAudio, h]
  · intro c n h hc
    simp at h
    simp [interruptAudio, playAudio, h, max_eq_right hc]
  · intro hsrc hnst c n hc
    subst hsrc
    cases cs
    · simp [interruptAudio]
    · have hms : max nst c = c := max_eq_right (le_trans hnst hc)
      simp [interruptAudio, playAudio, max_eq_right hc, hms]

/-- Witness for C8 on a concrete interrupted schedule and a concrete idle
scheduler. -/
theorem interrupt_clears_and_resets_witness :
    (interruptAudio 9
      { contextStarted := true, nextStartTime := 7,
        scheduledSources := [((0 : ℚ), (2 : ℚ))] }).2 =
        [((0 : ℚ), (2 : ℚ))] ∧
    (interruptAudio 9
      { contextStarted := true, nextStartTime := 7,
        scheduledSources := [((0 : ℚ), (2 : ℚ))] }).1.scheduledSources =
        [] ∧
    (interruptAudio 9
      { contextStarted := true, nextStartTime := 7,
        scheduledSources := [((0 : ℚ), (2 : ℚ))] }).1.nextStartTime = 9 ∧
    (playAudio 10 24
      (interruptAudio 9
        { contextStarted := true, nextStartTime := 7,
          scheduledSources := [((0 : ℚ), (2 : ℚ))] }).1).2 = 10 ∧
    playAudio 10 24
      (interruptAudio 9
        { contextStarted := true, nextStartTime := 5,
          scheduledSources := [] }).1 =
      playAudio 10 24
        { contextStarted := true, nextStartTime := 5,
          scheduledSources := [] } := by
  have h := interrupt_clears_and_resets
    { contextStarted := true, nextStartTime := 7,
      scheduledSources := [((0 : ℚ), (2 : ℚ))] } 9
  have h2 := interrupt_clears_and_resets
    { contextStarted := true, nextStartTime := 5,
      scheduledSources := [] } 9
  exact ⟨h.1, h.2.1, h.2.2.1 rfl, h.2.2.2.1 10 24 rfl (by norm_num),
    h2.2.2.2.2 rfl (by norm_num) 10 24 (by norm_num)⟩

/-- C10: a function-call request arriving with no registered handler still
gets exactly one response under its correlation id, whose result value is
the error-shaped mapping `{error: 'No function handler registered'}`. -/
theorem noHandler_single_error_response (call : FunctionCall) :
    sentResponses (handleFunctionCall none call) =
      [(call.id,
        Json.obj [("error", Json.str "No function handler registered")])] ∧
    (Json.obj
      [("error", Json.str "No function handler registered")]).hasErrorKey =
        true := by
  exact ⟨rfl, rfl⟩

end MARS
